import Mathlib

/-!
Verification development for the genemichaels source-code formatter.

The two repository files under verification are `src/sg_statement.rs` (the per-syntax-node
front end that maps Rust items onto the formatter's split-group tree) and
`src/bin/genemichaels.rs` (the command-line driver).  The split-group engine itself
(arena, builder, renderer) lives in the library crate outside those two files; where a
definition below models that engine it is marked `Modelled from the spec:` and follows
the specification's wording.  Everything else is translated directly from the source.
-/

/-! ## Core data model: split groups, arena, builder -/

/-- A source position (the line/column pairs of `proc_macro2::LineColumn`, flattened to a
single abstract token position; only identity of positions matters here). -/
abbrev Pos := Nat

/-- Modelled from the spec: "an immutable value threaded through construction and
rendering representing the current indentation depth" (§3). -/
abbrev Align := Nat

/-- Deriving a child alignment: "indent one level" never mutates the parent (§3). -/
def Align.indent (a : Align) : Align := a + 1

/-- The immutable configuration record (§6 of the spec; the `FormatConfig` consumed by
the CLI driver in `src/bin/genemichaels.rs`). -/
structure FormatConfig where
  quiet : Bool
  max_width : Nat
  root_splits : Bool
  split_brace_threshold : Option Nat
  split_attributes : Bool
  split_where : Bool
  comment_width : Option Nat
  comment_errors_fatal : Bool
deriving DecidableEq, Repr

/-- One entry of a split group (§3): a literal text fragment, a reference to a child
group, or a reattached whitespace/comment gap keyed by its source position. -/
inductive Entry where
  | lit (s : String)
  | child (idx : Nat)
  | gap (pos : Pos)
deriving DecidableEq, Repr

/-- A finalized split group: its entries in render order (`segs`), its child handles in
declared order (the order the split policy is evaluated against, which
`reverse_children` can flip), and whether it was marked forced-split at construction. -/
structure SplitGroup where
  segs : List Entry
  children : List Nat
  initialSplit : Bool
deriving DecidableEq, Repr

/-- The state threaded through `make_segs`: the configuration and the arena of finalized
groups (handles are indices into `arena`). -/
structure MakeSegsState where
  cfg : FormatConfig
  arena : List SplitGroup
deriving DecidableEq, Repr

/-- A still-open split group under construction (append-only until `build`). -/
structure SplitGroupBuilder where
  segs : List Entry
  children : List Nat
  initialSplit : Bool
deriving DecidableEq, Repr

/-- `new_sg(out)`: start a fresh empty group. -/
def new_sg (_out : MakeSegsState) : SplitGroupBuilder := ⟨[], [], false⟩

/-- `sg.seg(out, text)`: append a literal text fragment. -/
def SplitGroupBuilder.seg (node : SplitGroupBuilder) (_out : MakeSegsState) (s : String) :
    SplitGroupBuilder :=
  { node with segs := node.segs ++ [Entry.lit s] }

/-- `sg.child(idx)`: append a reference to an already-built child group; the child is
recorded both in render order and in declared (policy) order. -/
def SplitGroupBuilder.child (node : SplitGroupBuilder) (idx : Nat) : SplitGroupBuilder :=
  { node with segs := node.segs ++ [Entry.child idx], children := node.children ++ [idx] }

/-- `sg.initial_split()`: mark the group forced-split at construction time. -/
def SplitGroupBuilder.initial_split (node : SplitGroupBuilder) : SplitGroupBuilder :=
  { node with initialSplit := true }

/-- `sg.reverse_children()`: reverse the declared order of the group's children.
Modelled from the spec: "reverse the declared order of a group's entries after
construction (used when the policy that determines whether the group must split should be
evaluated against a different child than the one that appears first in final output)"
(§4.2); render order (`segs`) is unchanged. -/
def SplitGroupBuilder.reverse_children (node : SplitGroupBuilder) : SplitGroupBuilder :=
  { node with children := node.children.reverse }

/-- `sg.build(out)`: finalize the group into the arena and return its handle. -/
def SplitGroupBuilder.build (node : SplitGroupBuilder) (out : MakeSegsState) :
    MakeSegsState × Nat :=
  ({ out with arena := out.arena ++ [⟨node.segs, node.children, node.initialSplit⟩] },
    out.arena.length)

/-- The group a `make_segs`-style call produced: look its handle up in the final arena. -/
def builtGroup (r : MakeSegsState × Nat) : SplitGroup :=
  r.1.arena.getD r.2 ⟨[], [], false⟩

/-! ## Spec-modelled helpers from the library crate (outside `src/`) -/

/-- Modelled from the spec: "appends reattached gaps at each token boundary by source
position" (§6).  `append_whitespace` lives in `sg_general.rs`, outside the two source
files; here it records the gap entry at the given position. -/
def append_whitespace (_out : MakeSegsState) (_base_indent : Align)
    (node : SplitGroupBuilder) (pos : Pos) : SplitGroupBuilder :=
  { node with segs := node.segs ++ [Entry.gap pos] }

/-- The threshold test on an option value: "force-split any brace-delimited group whose
element count is ≥ threshold; absent = no such rule" (§6 configuration table). -/
def splitCheck (threshold : Option Nat) (count : Nat) : Bool :=
  match threshold with
  | some t => t ≤ count
  | none => false

/-- Modelled from the spec: `check_split_brace_threshold` (library crate, outside `src/`)
reads `split_brace_threshold` from the configuration and compares it with the element
count (§6). -/
def check_split_brace_threshold (out : MakeSegsState) (count : Nat) : Bool :=
  splitCheck out.cfg.split_brace_threshold count

/-- Outer attributes, kept abstract (their text). -/
abbrev Attr := String

/-- Statements inside block bodies, kept abstract (their text): the statement front end
recurses through `Formattable` (§6) and no claim under verification depends on the
contents of a block body. -/
abbrev StmtM := String

/-- Types (and expressions used as types/discriminants), kept abstract (their text). -/
abbrev Ty := String

/-- Modelled from the spec: a type recurses "into sub-expressions as child groups" (§6);
the type front end is `sg_type.rs`, outside `src/`. -/
def tyMakeSegs (out : MakeSegsState) (_base_indent : Align) (t : Ty) :
    MakeSegsState × Nat :=
  ((new_sg out).seg out t).build out

/-- Generic parameters plus the optional where clause of a declaration. -/
structure WhereClause where
  where_pos : Pos
deriving DecidableEq, Repr

/-- The generics of a declaration: parameter texts and the optional where clause. -/
structure Generics where
  params : List Ty
  where_clause : Option WhereClause
deriving DecidableEq, Repr

/-- Modelled from the spec: `build_generics_part_a` (`sg_type.rs`, outside `src/`) builds
the generic-parameter list as its own group. -/
def build_generics_part_a (out : MakeSegsState) (_base_indent : Align) (g : Generics) :
    MakeSegsState × Nat :=
  let sg := new_sg out
  let sg := sg.seg out "<"
  let sg := g.params.foldl (fun sg p => sg.seg out p) sg
  let sg := sg.seg out ">"
  sg.build out

/-- Modelled from the spec: `build_generics_part_b` (`sg_type.rs`, outside `src/`) builds
the where-clause subtree as its own group ("split_where: force where-clause groups to
split", §6); the group opens with the gap before the `where` keyword and the keyword
itself. -/
def build_generics_part_b (out : MakeSegsState) (base_indent : Align)
    (wh : WhereClause) : MakeSegsState × Nat :=
  let sg := new_sg out
  let sg := append_whitespace out base_indent sg wh.where_pos
  let sg := sg.seg out "where"
  sg.build out

/-- Modelled from the spec: `append_generics` (`sg_type.rs`, outside `src/`) appends the
parameter-list group and the where-clause group as children of the current group. -/
def append_generics (out : MakeSegsState) (base_indent : Align)
    (node : SplitGroupBuilder) (g : Generics) : MakeSegsState × SplitGroupBuilder :=
  let r :=
    if g.params.isEmpty then (out, node)
    else
      let ra := build_generics_part_a out base_indent g
      (ra.1, node.child ra.2)
  let out := r.1
  let node := r.2
  match g.where_clause with
  | some wh =>
    let rb := build_generics_part_b out base_indent wh
    (rb.1, node.child rb.2)
  | none => (out, node)

/-- Modelled from the spec: each element of a list is rendered as its own child group and
appended in order (`sg_general_lists.rs`, outside `src/`). -/
def appendChildren {α : Type} (elemSegs : MakeSegsState → Align → α → MakeSegsState × Nat)
    (out : MakeSegsState) (base_indent : Align) (node : SplitGroupBuilder) :
    List α → MakeSegsState × SplitGroupBuilder
  | [] => (out, node)
  | x :: xs =>
    let r := elemSegs out base_indent x
    appendChildren elemSegs r.1 base_indent (node.child r.2) xs

/-- Modelled from the spec: `append_bracketed_list_curly` (`sg_general_lists.rs`, outside
`src/`) — a curly-brace-delimited element list appended into the current group. -/
def append_bracketed_list_curly {α : Type}
    (elemSegs : MakeSegsState → Align → α → MakeSegsState × Nat)
    (out : MakeSegsState) (base_indent : Align) (node : SplitGroupBuilder)
    (brace_pos : Pos) (items : List α) (end_pos : Pos) :
    MakeSegsState × SplitGroupBuilder :=
  let node := append_whitespace out base_indent node brace_pos
  let node := node.seg out " \x7b"
  let r := appendChildren elemSegs out base_indent node items
  let out := r.1
  let node := r.2
  let node := append_whitespace out base_indent node end_pos
  (out, node.seg out "\x7d")

/-- Modelled from the spec: `append_bracketed_list_common` (`sg_general_lists.rs`,
outside `src/`) — a bracket-delimited element list with explicit open/close tokens. -/
def append_bracketed_list_common {α : Type}
    (elemSegs : MakeSegsState → Align → α → MakeSegsState × Nat)
    (out : MakeSegsState) (base_indent : Align) (node : SplitGroupBuilder)
    (start : Pos) (openTok : String) (items : List α) (end_pos : Pos) (closeTok : String) :
    MakeSegsState × SplitGroupBuilder :=
  let node := append_whitespace out base_indent node start
  let node := node.seg out openTok
  let r := appendChildren elemSegs out base_indent node items
  let out := r.1
  let node := r.2
  let node := append_whitespace out base_indent node end_pos
  (out, node.seg out closeTok)

/-- Modelled from the spec: `new_sg_bracketed_list` (`sg_general_lists.rs`, outside
`src/`) — a fresh group holding a bracket-delimited element list (used for function
signature inputs; `variadic` stands for the `...` suffix closure of the source). -/
def new_sg_bracketed_list (out : MakeSegsState) (base_indent : Align) (start : Pos)
    (openTok : String) (_pad : Bool) (_sep : String) (items : List Ty) (variadic : Bool)
    (end_pos : Pos) (closeTok : String) : MakeSegsState × Nat :=
  let sg := new_sg out
  let sg := append_whitespace out base_indent sg start
  let sg := sg.seg out openTok
  let r := appendChildren tyMakeSegs out base_indent sg items
  let out := r.1
  let sg := r.2
  let sg := if variadic then sg.seg out "..." else sg
  let sg := append_whitespace out base_indent sg end_pos
  (sg.seg out closeTok).build out

/-- Modelled from the spec: `append_inline_list` (`sg_general_lists.rs`, outside `src/`)
— a separator-joined element list appended inline into the current group. -/
def append_inline_list (out : MakeSegsState) (base_indent : Align)
    (node : SplitGroupBuilder) (sep : String) :
    List Ty → MakeSegsState × SplitGroupBuilder
  | [] => (out, node)
  | t :: ts =>
    let r := tyMakeSegs out base_indent t
    append_inline_list r.1 base_indent ((node.seg out sep).child r.2) sep ts

/-- Modelled from the spec: `append_binary` (`sg_general.rs`, outside `src/`) — appends
the operator token and the right-hand side as a child group. -/
def append_binary (out : MakeSegsState) (base_indent : Align)
    (node : SplitGroupBuilder) (tok : String) (rhs : Ty) :
    MakeSegsState × SplitGroupBuilder :=
  let r := tyMakeSegs out base_indent rhs
  (r.1, ((node.seg out tok).child r.2))

/-- A block body: brace positions plus its (abstract) statements. -/
structure Block where
  brace_pos : Pos
  stmts : List StmtM
  brace_end : Pos
deriving DecidableEq, Repr

/-- Modelled from the spec: `new_sg_block` (`sg_general.rs`, outside `src/`) — a fresh
group for a block body: the gap and prefix at the opening brace, the statements, and the
closing brace. -/
def new_sg_block (out : MakeSegsState) (base_indent : Align) (start : Pos)
    (pfx : String) (_attrs : Option (List Attr)) (stmts : List StmtM) (end_pos : Pos) :
    MakeSegsState × Nat :=
  let sg := new_sg out
  let sg := append_whitespace out base_indent sg start
  let sg := sg.seg out pfx
  let sg := stmts.foldl (fun sg s => sg.seg out s) sg
  let sg := append_whitespace out base_indent sg end_pos
  (sg.seg out "\x7d").build out

/-- Modelled from the spec: `new_sg_outer_attrs` (`sg_general.rs`, outside `src/`) — with
no outer attributes the inner builder runs directly; otherwise the node is wrapped in an
enclosing group holding the attributes and the inner group. -/
def new_sg_outer_attrs (out : MakeSegsState) (base_indent : Align) (attrs : List Attr)
    (inner : MakeSegsState → Align → MakeSegsState × Nat) : MakeSegsState × Nat :=
  if attrs.isEmpty then inner out base_indent
  else
    let sg := new_sg out
    let sg := attrs.foldl (fun sg a => sg.seg out ("#[" ++ a ++ "]")) sg
    let r := inner out base_indent
    ((sg.child r.2).build r.1)

/-! ## syn AST model (the fields the translated arms consume) -/

/-- `syn::Visibility` (the fields `append_vis` consumes). -/
inductive Visibility where
  | public (pub_pos : Pos)
  | crate (crate_pos : Pos)
  | restricted (pub_pos : Pos) (in_token : Bool) (path : List String)
  | inherited
deriving DecidableEq, Repr

/-- Modelled from the spec: `append_path` (`sg_type.rs`, outside `src/`) appends the path
segments into the current group. -/
def append_path (out : MakeSegsState) (node : SplitGroupBuilder) (_base_indent : Align)
    (_leading : Option Pos) (segments : List String) : SplitGroupBuilder :=
  segments.foldl (fun node s => node.seg out s) node

/-- Translation of `append_vis` (`src/sg_statement.rs`): emit `pub `, `crate `,
`pub(...) `, or nothing, with the restricted path built as a child group. -/
def append_vis (out : MakeSegsState) (base_indent : Align) (node : SplitGroupBuilder)
    (vis : Visibility) : MakeSegsState × SplitGroupBuilder :=
  match vis with
  | Visibility.public x =>
    (out, (append_whitespace out base_indent node x).seg out "pub ")
  | Visibility.crate x =>
    (out, (append_whitespace out base_indent node x).seg out "crate ")
  | Visibility.restricted pub_pos in_token path =>
    let node := append_whitespace out base_indent node pub_pos
    let node := node.seg out "pub("
    let node := if in_token then node.seg out "in " else node
    let rc :=
      let node2 := new_sg out
      let node2 := append_path out node2 base_indent none path
      node2.build out
    let out := rc.1
    let node := node.child rc.2
    (out, node.seg out ") ")
  | Visibility.inherited => (out, node)

/-- The `extern` ABI of a signature. -/
structure Abi where
  extern_pos : Pos
  name : Option (Pos × String)
deriving DecidableEq, Repr

/-- `syn::Signature` (the fields `new_sg_sig` consumes). -/
structure Signature where
  constness : Option Pos
  asyncness : Option Pos
  unsafety : Option Pos
  abi : Option Abi
  fn_pos : Pos
  ident_pos : Pos
  ident : String
  generics : Generics
  paren_pos : Pos
  inputs : List Ty
  variadic : Option Pos
  output : Option Ty
  paren_end : Pos
deriving DecidableEq, Repr

/-- Translation of `new_sg_sig` (`src/sg_statement.rs`): the signature group — qualifier
keywords, `fn name`, generics, the parenthesized inputs as a child list group, the return
type, and the where clause attached as a child. -/
def new_sg_sig (out : MakeSegsState) (base_indent : Align) (sig : Signature) :
    MakeSegsState × Nat :=
  let sg := new_sg out
  let sg := match sig.constness with
    | some x => (append_whitespace out base_indent sg x).seg out "const "
    | none => sg
  let sg := match sig.asyncness with
    | some x => (append_whitespace out base_indent sg x).seg out "async "
    | none => sg
  let sg := match sig.unsafety with
    | some x => (append_whitespace out base_indent sg x).seg out "unsafe "
    | none => sg
  let sg := match sig.abi with
    | some abi =>
      let sg := append_whitespace out base_indent sg abi.extern_pos
      let sg := sg.seg out "extern "
      (match abi.name with
      | some nm => ((append_whitespace out base_indent sg nm.1).seg out nm.2).seg out " "
      | none => sg)
    | none => sg
  let sg := append_whitespace out base_indent sg sig.fn_pos
  let sg := sg.seg out "fn "
  let sg := append_whitespace out base_indent sg sig.ident_pos
  let sg := sg.seg out sig.ident
  let r :=
    if sig.generics.params.isEmpty then (out, sg)
    else
      let ra := build_generics_part_a out base_indent sig.generics
      (ra.1, sg.child ra.2)
  let out := r.1
  let sg := r.2
  let rb := new_sg_bracketed_list out base_indent sig.paren_pos "(" false ","
    sig.inputs sig.variadic.isSome sig.paren_end ")"
  let out := rb.1
  let sg := sg.child rb.2
  let r := match sig.output with
    | none => (out, sg)
    | some t =>
      let sg := sg.seg out " -> "
      let rt := tyMakeSegs out base_indent t
      (rt.1, sg.child rt.2)
  let out := r.1
  let sg := r.2
  let r := match sig.generics.where_clause with
    | some wh =>
      let rw := build_generics_part_b out base_indent wh
      (rw.1, sg.child rw.2)
    | none => (out, sg)
  let out := r.1
  let sg := r.2
  sg.build out

/-- `MarginGroup` (§3/§4.4): the blank-line category tag of a block-level entry. -/
inductive MarginGroup where
  | None
  | Import
  | BlockDef
deriving DecidableEq, Repr

/-- A field of a struct, union, or enum variant. -/
structure FieldM where
  attrs : List Attr
  vis : Visibility
  ident : Option (Pos × String)
  ty : Ty
deriving DecidableEq, Repr

/-- The named-field list `{ ... }` of a struct, union, or variant. -/
structure FieldsNamed where
  brace_pos : Pos
  named : List FieldM
  brace_end : Pos
deriving DecidableEq, Repr

/-- The tuple-field list `( ... )` of a struct or variant. -/
structure FieldsUnnamed where
  paren_pos : Pos
  unnamed : List FieldM
  paren_end : Pos
deriving DecidableEq, Repr

/-- `syn::Fields`. -/
inductive Fields where
  | named (s : FieldsNamed)
  | unnamed (t : FieldsUnnamed)
  | unit
deriving DecidableEq, Repr

/-- Translation of `impl Formattable for Field` (`src/sg_statement.rs`): the closure body
inside `new_sg_outer_attrs`. -/
def fieldInner (out : MakeSegsState) (base_indent : Align) (f : FieldM) :
    MakeSegsState × Nat :=
  let sg := new_sg out
  let r := append_vis out base_indent sg f.vis
  let out := r.1
  let sg := r.2
  let sg := match f.ident with
    | some n => (append_whitespace out base_indent sg n.1).seg out (n.2 ++ ": ")
    | none => sg
  let rt := tyMakeSegs out base_indent f.ty
  (sg.child rt.2).build rt.1

/-- Translation of `impl Formattable for Field`: the full `make_segs` with the outer
attribute wrapper. -/
def fieldMakeSegs (out : MakeSegsState) (base_indent : Align) (f : FieldM) :
    MakeSegsState × Nat :=
  new_sg_outer_attrs out base_indent f.attrs (fun out base_indent =>
    fieldInner out base_indent f)

/-- `syn::Variant`. -/
structure Variant where
  attrs : List Attr
  ident_pos : Pos
  ident : String
  fields : Fields
  discriminant : Option Ty
deriving DecidableEq, Repr

/-- Translation of `impl Formattable for Variant` (`src/sg_statement.rs`): the closure
body inside `new_sg_outer_attrs` — variant name, its fields (named fields run the
split-brace-threshold check), and the optional discriminant. -/
def variantInner (out : MakeSegsState) (base_indent : Align) (v : Variant) :
    MakeSegsState × Nat :=
  let sg := new_sg out
  let sg := append_whitespace out base_indent sg v.ident_pos
  let sg := sg.seg out v.ident
  let r := match v.fields with
    | Fields.named s =>
      let sg := if check_split_brace_threshold out s.named.length then sg.initial_split
        else sg
      append_bracketed_list_curly fieldMakeSegs out base_indent sg s.brace_pos s.named
        s.brace_end
    | Fields.unnamed t =>
      append_bracketed_list_common fieldMakeSegs out base_indent sg t.paren_pos "("
        t.unnamed t.paren_end ")"
    | Fields.unit => (out, sg)
  let out := r.1
  let sg := r.2
  let r := match v.discriminant with
    | some e => append_binary out base_indent sg " =" e
    | none => (out, sg)
  let out := r.1
  let sg := r.2
  sg.build out

/-- Translation of `impl Formattable for Variant`: the full `make_segs` with the outer
attribute wrapper. -/
def variantMakeSegs (out : MakeSegsState) (base_indent : Align) (v : Variant) :
    MakeSegsState × Nat :=
  new_sg_outer_attrs out base_indent v.attrs (fun out base_indent =>
    variantInner out base_indent v)

/-- `syn::ItemStruct` (the fields the `Item::Struct` arm consumes). -/
structure ItemStruct where
  attrs : List Attr
  vis : Visibility
  struct_pos : Pos
  ident : String
  generics : Generics
  fields : Fields
  semi_pos : Option Pos
deriving DecidableEq, Repr

/-- Translation of the `Item::Struct` arm of `impl Formattable for Item`
(`src/sg_statement.rs`): the closure body inside `new_sg_outer_attrs`.  Named fields
attach the where clause, run the split-brace-threshold check (marking the group
forced-split), and append the curly field list; tuple and unit structs put the where
clause after the fields and end with `;`. -/
def itemStructInner (out : MakeSegsState) (base_indent : Align) (x : ItemStruct) :
    MakeSegsState × Nat :=
  let sg := new_sg out
  let r := append_vis out base_indent sg x.vis
  let out := r.1
  let sg := r.2
  let sg := append_whitespace out base_indent sg x.struct_pos
  let sg := sg.seg out "struct "
  let sg := sg.seg out x.ident
  let r :=
    if x.generics.params.isEmpty then (out, sg)
    else
      let ra := build_generics_part_a out base_indent x.generics
      (ra.1, sg.child ra.2)
  let out := r.1
  let sg := r.2
  match x.fields with
  | Fields.named s =>
    let r := match x.generics.where_clause with
      | some wh =>
        let rb := build_generics_part_b out base_indent wh
        (rb.1, sg.child rb.2)
      | none => (out, sg)
    let out := r.1
    let sg := r.2
    let sg := if check_split_brace_threshold out s.named.length then sg.initial_split
      else sg
    let r := append_bracketed_list_curly fieldMakeSegs out base_indent sg s.brace_pos
      s.named s.brace_end
    r.2.build r.1
  | Fields.unnamed t =>
    let r := append_bracketed_list_common fieldMakeSegs out base_indent sg t.paren_pos "("
      t.unnamed t.paren_end ")"
    let out := r.1
    let sg := r.2
    let r := match x.generics.where_clause with
      | some wh =>
        let rb := build_generics_part_b out base_indent wh
        (rb.1, sg.child rb.2)
      | none => (out, sg)
    let out := r.1
    let sg := r.2
    let sg := append_whitespace out base_indent sg (x.semi_pos.getD 0)
    let sg := sg.seg out ";"
    sg.build out
  | Fields.unit =>
    let r := match x.generics.where_clause with
      | some wh =>
        let rb := build_generics_part_b out base_indent wh
        (rb.1, sg.child rb.2)
      | none => (out, sg)
    let out := r.1
    let sg := r.2
    let sg := append_whitespace out base_indent sg (x.semi_pos.getD 0)
    let sg := sg.seg out ";"
    sg.build out

/-- `syn::ItemEnum` (the fields the `Item::Enum` arm consumes). -/
structure ItemEnum where
  attrs : List Attr
  vis : Visibility
  enum_pos : Pos
  ident : String
  generics : Generics
  brace_pos : Pos
  variants : List Variant
  brace_end : Pos
deriving DecidableEq, Repr

/-- Translation of the `Item::Enum` arm of `impl Formattable for Item`
(`src/sg_statement.rs`): the closure body — the split-brace-threshold check on the
variant count runs first and marks the group forced-split, then visibility, `enum name`,
generics, and the curly variant list. -/
def itemEnumInner (out : MakeSegsState) (base_indent : Align) (x : ItemEnum) :
    MakeSegsState × Nat :=
  let sg := new_sg out
  let sg := if check_split_brace_threshold out x.variants.length then sg.initial_split
    else sg
  let r := append_vis out base_indent sg x.vis
  let out := r.1
  let sg := r.2
  let sg := append_whitespace out base_indent sg x.enum_pos
  let sg := sg.seg out "enum "
  let sg := sg.seg out x.ident
  let r := append_generics out base_indent sg x.generics
  let out := r.1
  let sg := r.2
  let r := append_bracketed_list_curly variantMakeSegs out base_indent sg x.brace_pos
    x.variants x.brace_end
  r.2.build r.1

/-- `syn::ItemUnion` (the fields the `Item::Union` arm consumes). -/
structure ItemUnion where
  attrs : List Attr
  vis : Visibility
  union_pos : Pos
  ident : String
  generics : Generics
  fields : FieldsNamed
deriving DecidableEq, Repr

/-- Translation of the `Item::Union` arm of `impl Formattable for Item`
(`src/sg_statement.rs`): the closure body — the split-brace-threshold check on the named
field count runs first and marks the group forced-split, then visibility, `union name`,
generics, and the curly field list. -/
def itemUnionInner (out : MakeSegsState) (base_indent : Align) (x : ItemUnion) :
    MakeSegsState × Nat :=
  let sg := new_sg out
  let sg := if check_split_brace_threshold out x.fields.named.length then sg.initial_split
    else sg
  let r := append_vis out base_indent sg x.vis
  let out := r.1
  let sg := r.2
  let sg := append_whitespace out base_indent sg x.union_pos
  let sg := sg.seg out "union "
  let sg := sg.seg out x.ident
  let r := append_generics out base_indent sg x.generics
  let out := r.1
  let sg := r.2
  let r := append_bracketed_list_curly fieldMakeSegs out base_indent sg
    x.fields.brace_pos x.fields.named x.fields.brace_end
  r.2.build r.1

/-- `syn::ItemFn` (the fields the `Item::Fn` arm consumes). -/
structure ItemFn where
  attrs : List Attr
  vis : Visibility
  sig : Signature
  block : Block
deriving DecidableEq, Repr

/-- Translation of the `Item::Fn` arm of `impl Formattable for Item`
(`src/sg_statement.rs`): the closure body — visibility, the signature as a child group,
the body block as a child group, then `reverse_children`. -/
def itemFnInner (out : MakeSegsState) (base_indent : Align) (x : ItemFn) :
    MakeSegsState × Nat :=
  let sg := new_sg out
  let r := append_vis out base_indent sg x.vis
  let out := r.1
  let sg := r.2
  let rs := new_sg_sig out base_indent x.sig
  let out := rs.1
  let sg := sg.child rs.2
  let rb := new_sg_block out base_indent x.block.brace_pos " \x7b" (some x.attrs)
    x.block.stmts x.block.brace_end
  let out := rb.1
  let sg := sg.child rb.2
  let sg := sg.reverse_children
  sg.build out

/-- `syn::ImplItemMethod` (the fields the `ImplItem::Method` arm consumes). -/
structure ImplItemMethod where
  attrs : List Attr
  vis : Visibility
  sig : Signature
  block : Block
deriving DecidableEq, Repr

/-- Translation of the `ImplItem::Method` arm of `impl Formattable for ImplItem`
(`src/sg_statement.rs`): the closure body — visibility, the signature as a child group,
the body block as a child group, then `reverse_children`. -/
def implItemMethodInner (out : MakeSegsState) (base_indent : Align) (x : ImplItemMethod) :
    MakeSegsState × Nat :=
  let sg := new_sg out
  let r := append_vis out base_indent sg x.vis
  let out := r.1
  let sg := r.2
  let rs := new_sg_sig out base_indent x.sig
  let out := rs.1
  let sg := sg.child rs.2
  let rb := new_sg_block out base_indent x.block.brace_pos " \x7b" (some x.attrs)
    x.block.stmts x.block.brace_end
  let out := rb.1
  let sg := sg.child rb.2
  let sg := sg.reverse_children
  sg.build out

/-- `syn::TraitItemMethod` (the fields the `TraitItem::Method` arm consumes). -/
structure TraitItemMethod where
  attrs : List Attr
  sig : Signature
  default : Option Block
  semi_pos : Option Pos
deriving DecidableEq, Repr

/-- Translation of the `TraitItem::Method` arm of `impl Formattable for TraitItem`
(`src/sg_statement.rs`): the closure body — the signature as a child group; with a
default body the block is a second child and the children are reversed, otherwise the
trailing `;` is emitted (`x.semi_token.unwrap()` of the source becomes `getD 0`). -/
def traitItemMethodInner (out : MakeSegsState) (base_indent : Align)
    (x : TraitItemMethod) : MakeSegsState × Nat :=
  let sg := new_sg out
  let rs := new_sg_sig out base_indent x.sig
  let out := rs.1
  let sg := sg.child rs.2
  match x.default with
  | some d =>
    let rb := new_sg_block out base_indent d.brace_pos " \x7b" none d.stmts d.brace_end
    let out := rb.1
    let sg := sg.child rb.2
    let sg := sg.reverse_children
    sg.build out
  | none =>
    let sg := append_whitespace out base_indent sg (x.semi_pos.getD 0)
    let sg := sg.seg out ";"
    sg.build out

/-- `syn::TraitItemConst` (payload of the `TraitItem::Const` variant). -/
structure TraitItemConst where
  attrs : List Attr
  ident : String
  ty : Ty
  default : Option Ty
deriving DecidableEq, Repr

/-- `syn::TraitItemType` (payload of the `TraitItem::Type` variant). -/
structure TraitItemType where
  attrs : List Attr
  ident : String
  generics : Generics
  default : Option Ty
deriving DecidableEq, Repr

/-- `syn::TraitItemMacro` (payload of the `TraitItem::Macro` variant). -/
structure TraitItemMacro where
  attrs : List Attr
  mac : String
  semi : Bool
deriving DecidableEq, Repr

/-- `syn::TraitItem`. -/
inductive TraitItem where
  | const (x : TraitItemConst)
  | method (x : TraitItemMethod)
  | typ (x : TraitItemType)
  | mac (x : TraitItemMacro)
  | verbatim (x : String)
deriving DecidableEq, Repr

/-- Translation of `impl FormattableStmt for TraitItem :: want_margin`
(`src/sg_statement.rs`): the Margin Group tag and "has visible body" flag of each trait
item; a method's flag is `default.is_some()`. -/
def TraitItem.want_margin : TraitItem → MarginGroup × Bool
  | TraitItem.const _ => (MarginGroup.None, false)
  | TraitItem.method m => (MarginGroup.BlockDef, m.default.isSome)
  | TraitItem.typ _ => (MarginGroup.None, false)
  | TraitItem.mac _ => (MarginGroup.BlockDef, true)
  | TraitItem.verbatim _ => (MarginGroup.None, false)

/-- `syn::ItemTrait` (the fields the `Item::Trait` arm consumes); the trait body items
are abstract statements, as for every block body in this model. -/
structure ItemTrait where
  attrs : List Attr
  vis : Visibility
  unsafety : Option Pos
  auto_pos : Option Pos
  trait_pos : Pos
  ident : String
  generics : Generics
  colon : Bool
  supertraits : List Ty
  brace_pos : Pos
  items : List StmtM
  brace_end : Pos
deriving DecidableEq, Repr

/-- Translation of the `Item::Trait` arm of `impl Formattable for Item`
(`src/sg_statement.rs`): the closure body — visibility, `unsafe`/`auto` qualifiers,
`trait name`, generics, supertraits, the where clause, and the body block as a child.
Note: exactly as in the source, the group returned by `build_generics_part_b` for the
where clause is dropped (it is never passed to `sg.child`, unlike every other arm). -/
def itemTraitInner (out : MakeSegsState) (base_indent : Align) (x : ItemTrait) :
    MakeSegsState × Nat :=
  let sg := new_sg out
  let r := append_vis out base_indent sg x.vis
  let out := r.1
  let sg := r.2
  let pfx := ""
  let rp := match x.unsafety with
    | some u => (append_whitespace out base_indent sg u, pfx ++ "unsafe ")
    | none => (sg, pfx)
  let sg := rp.1
  let pfx := rp.2
  let rp := match x.auto_pos with
    | some a => (append_whitespace out base_indent sg a, pfx ++ "auto ")
    | none => (sg, pfx)
  let sg := rp.1
  let pfx := rp.2
  let sg := append_whitespace out base_indent sg x.trait_pos
  let pfx := pfx ++ "trait " ++ x.ident
  let sg := sg.seg out pfx
  let r :=
    if x.generics.params.isEmpty then (out, sg)
    else
      let ra := build_generics_part_a out base_indent x.generics
      (ra.1, sg.child ra.2)
  let out := r.1
  let sg := r.2
  let r :=
    if x.colon then
      let sg := sg.seg out ": "
      append_inline_list out base_indent sg " +" x.supertraits
    else (out, sg)
  let out := r.1
  let sg := r.2
  let out := match x.generics.where_clause with
    | some wh => (build_generics_part_b out base_indent wh).1
    | none => out
  let rb := new_sg_block out base_indent x.brace_pos " \x7b" (some x.attrs) x.items
    x.brace_end
  let out := rb.1
  let sg := sg.child rb.2
  sg.build out

/-- `syn::UseTree`. -/
inductive UseTree where
  | path (ident_pos : Pos) (ident : String) (tree : UseTree)
  | name (ident_pos : Pos) (ident : String)
  | rename (ident_pos : Pos) (ident : String) (rename_pos : Pos) (rname : String)
  | glob
  | group (brace_pos : Pos) (items : List UseTree) (brace_end : Pos)

mutual

/-- Translation of `impl Formattable for &UseTree` (`src/sg_statement.rs`); the `Group`
arm runs the split-brace-threshold check on the item count and marks the group
forced-split, then appends the braced item list (the `append_bracketed_list` call of the
source, inlined here because the helper is generic over `Formattable`). -/
def useTreeMakeSegs (out : MakeSegsState) (base_indent : Align) :
    UseTree → MakeSegsState × Nat
  | UseTree.path p ident tree =>
    let sg := new_sg out
    let sg := append_whitespace out base_indent sg p
    let sg := sg.seg out (ident ++ "::")
    let rc := useTreeMakeSegs out base_indent tree
    (sg.child rc.2).build rc.1
  | UseTree.name p ident =>
    let sg := new_sg out
    let sg := append_whitespace out base_indent sg p
    let sg := sg.seg out ident
    sg.build out
  | UseTree.rename p ident rp rname =>
    let sg := new_sg out
    let sg := append_whitespace out base_indent sg p
    let sg := append_whitespace out base_indent sg rp
    let sg := sg.seg out (ident ++ " as " ++ rname)
    sg.build out
  | UseTree.glob =>
    let sg := new_sg out
    let sg := sg.seg out "*"
    sg.build out
  | UseTree.group brace_pos items brace_end =>
    let sg := new_sg out
    let sg := if check_split_brace_threshold out items.length then sg.initial_split
      else sg
    let sg := append_whitespace out base_indent sg brace_pos
    let sg := sg.seg out "\x7b"
    let r := useTreeListSegs out base_indent sg items
    let out := r.1
    let sg := r.2
    let sg := append_whitespace out base_indent sg brace_end
    let sg := sg.seg out "\x7d"
    sg.build out

/-- The item list of a use-group: each item becomes a child group in order. -/
def useTreeListSegs (out : MakeSegsState) (base_indent : Align)
    (sg : SplitGroupBuilder) : List UseTree → MakeSegsState × SplitGroupBuilder
  | [] => (out, sg)
  | t :: ts =>
    let rc := useTreeMakeSegs out base_indent t
    useTreeListSegs rc.1 base_indent (sg.child rc.2) ts

end

/-! ## The command-line driver (`src/bin/genemichaels.rs`) -/

/-- Split a character list at every occurrence of the separator (the fragments between
separators, in order; always at least one fragment). -/
def splitOnChar (sep : Char) : List Char → List (List Char)
  | [] => [[]]
  | c :: cs =>
    if c = sep then [] :: splitOnChar sep cs
    else
      match splitOnChar sep cs with
      | [] => [[c]]
      | l :: ls => (c :: l) :: ls

/-- Split a character list at every newline. -/
def splitLinesChars (l : List Char) : List (List Char) :=
  splitOnChar '\n' l

/-- Strip one trailing carriage return, as Rust's `str::lines()` does per line. -/
def stripCR (l : List Char) : List Char :=
  match l.reverse with
  | '\r' :: rest => rest.reverse
  | _ => l

/-- Rust's `str::lines()`: split on newline, drop the empty fragment a trailing newline
would produce, strip one trailing carriage return per line. -/
def rustLines (s : String) : List String :=
  let parts := splitLinesChars s.toList
  let parts := match parts.reverse with
    | [] :: rest => rest.reverse
    | _ => parts
  parts.map (fun l => (stripCR l).asString)

/-- Translation of `skip` (`src/bin/genemichaels.rs`): true when any of the first five
lines contains the marker `` `nogenemichaels` `` (backticks included). -/
def skip (src : String) : Bool :=
  ((rustLines src).take 5).any (fun l =>
    decide (List.IsInfix "`nogenemichaels`".toList l.toList))

/-- A comment extracted from the source (text plus attachment position), as carried in
`FormatRes::lost_comments`. -/
structure Comment where
  loc : Pos
  text : String
deriving DecidableEq, Repr

/-- The outcome record of `format_str` (§3 Result): the rendered text and the mapping
from attachment point to comments that could not be placed (the `HashMap` modelled as an
association list). -/
structure FormatRes where
  rendered : String
  lost_comments : List (Pos × List Comment)
deriving DecidableEq, Repr

/-- A parse failure from `syn::parse_str::<File>` with the span the driver reports. -/
structure ParseErr where
  line : Nat
  col : Nat
  msg : String
deriving DecidableEq, Repr

/-- The error values `process` can return (its `anyhow!` messages carried structurally):
the propagated `format_str` error, the lost-comment listing, or the re-parse failure with
its position and the numbered excerpt of the rendered text. -/
inductive ProcessError where
  | format (msg : String)
  | lostComments (comments : List Comment)
  | reparse (line : Nat) (col : Nat) (msg : String) (excerpt : List (Nat × String))
deriving DecidableEq, Repr

/-- `res.lost_comments.values().flatten()`. -/
def lostValuesFlatten (m : List (Pos × List Comment)) : List Comment :=
  (m.map Prod.snd).flatten

/-- The numbered excerpt around the re-parse error:
`rendered.lines().enumerate().skip(line.saturating_sub(5)).take(10)` with 1-based line
numbers. -/
def excerptLines (rendered : String) (errLine : Nat) : List (Nat × String) :=
  ((((rustLines rendered).enum).drop (errLine - 5)).take 10).map (fun p => (p.1 + 1, p.2))

/-- Translation of `process` (`src/bin/genemichaels.rs`), parametric in the external
collaborators: `format_str` (the library entry point) and `parse_str` (the
`syn::parse_str::<File>` re-parse check; `none` = parsed successfully).  The rendered
text is returned only after the lost-comment check and the re-parse check both pass. -/
def process (format_str : String → FormatConfig → Except String FormatRes)
    (parse_str : String → Option ParseErr) (config : FormatConfig) (source : String) :
    Except ProcessError String :=
  match format_str source config with
  | Except.error e => Except.error (ProcessError.format e)
  | Except.ok res =>
    if !res.lost_comments.isEmpty then
      Except.error (ProcessError.lostComments (lostValuesFlatten res.lost_comments))
    else
      match parse_str res.rendered with
      | some e =>
        Except.error (ProcessError.reparse e.line e.col e.msg
          (excerptLines res.rendered e.line))
      | none => Except.ok res.rendered

/-- The stdin branch of `main` (`src/bin/genemichaels.rs`): a skipped input is echoed
verbatim, otherwise the `process` output is printed; the value is what gets printed on
success. -/
def mainStdin (format_str : String → FormatConfig → Except String FormatRes)
    (parse_str : String → Option ParseErr) (config : FormatConfig) (source : String) :
    Except ProcessError String :=
  if skip source then Except.ok source
  else process format_str parse_str config source

/-- What happened to one file of the file-list branch of `main`: skipped via the opt-out
marker (not rewritten), formatted (rewritten with the new text), or failed. -/
inductive FileOutcome where
  | skipped
  | formatted (newText : String)
  | failed
deriving DecidableEq, Repr

/-- The per-file closure of the file-list branch of `main` (`src/bin/genemichaels.rs`),
parametric in the filesystem read (`fs::read` + UTF-8 decoding; `Except.error` = I/O or
decoding failure).  A skipped file returns `Ok` without writing; a processed file is
rewritten with the output. -/
def fileStep (fs_read : String → Except String String)
    (format_str : String → FormatConfig → Except String FormatRes)
    (parse_str : String → Option ParseErr) (config : FormatConfig) (file : String) :
    FileOutcome :=
  match fs_read file with
  | Except.error _ => FileOutcome.failed
  | Except.ok source =>
    if skip source then FileOutcome.skipped
    else
      match process format_str parse_str config source with
      | Except.ok out => FileOutcome.formatted out
      | Except.error _ => FileOutcome.failed

/-- The `for file in &args.files` loop of `main`: every file is visited in order (the
loop never breaks), each failure sets the `failed` flag, and the per-file outcomes are
collected. -/
def mainFilesLoop (fs_read : String → Except String String)
    (format_str : String → FormatConfig → Except String FormatRes)
    (parse_str : String → Option ParseErr) (config : FormatConfig) :
    List String → Bool → List (String × FileOutcome) × Bool
  | [], failed => ([], failed)
  | file :: rest, failed =>
    let o := fileStep fs_read format_str parse_str config file
    let failed := failed || decide (o = FileOutcome.failed)
    let r := mainFilesLoop fs_read format_str parse_str config rest failed
    ((file, o) :: r.1, r.2)

/-- The exit status of the file-list branch: `process::exit(1)` when the loop set the
`failed` flag, otherwise the process ends normally with status 0. -/
def mainFilesExit (fs_read : String → Except String String)
    (format_str : String → FormatConfig → Except String FormatRes)
    (parse_str : String → Option ParseErr) (config : FormatConfig)
    (files : List String) : Nat :=
  if (mainFilesLoop fs_read format_str parse_str config files false).2 then 1 else 0

/-- `Offable<T>` of the CLI: a flag value that is either `off` or a value. -/
inductive Offable (T : Type) where
  | off
  | on (x : T)
deriving DecidableEq, Repr

/-- The `On` marker type of the CLI (the only legal non-off value of a boolean flag). -/
structure On where
deriving DecidableEq, Repr

/-- The parsed command-line arguments (`struct Args` of `src/bin/genemichaels.rs`). -/
structure Args where
  files : List String
  quiet : Bool
  package : Bool
  thread_count : Option Nat
  line_length : Nat
  root_splits : Bool
  split_brace_threshold : Offable Nat
  split_attributes : Offable On
  split_where : Offable On
  comment_length : Offable Nat
  comment_errors_fatal : Offable On

/-- The `Args` value produced by `Args::parse()` when no flags are given: every field
takes the `default_value_t` expression of its `#[arg]` attribute, evaluated against the
library's `FormatConfig::default()` (kept parametric here).  Note the `split_where`
default is computed from `FormatConfig::default().split_attributes`, exactly as in the
source (line 136). -/
def defaultArgs (d : FormatConfig) : Args where
  files := []
  quiet := false
  package := false
  thread_count := none
  line_length := d.max_width
  root_splits := false
  split_brace_threshold := match d.split_brace_threshold with
    | some x => Offable.on x
    | none => Offable.off
  split_attributes := match d.split_attributes with
    | true => Offable.on ⟨⟩
    | false => Offable.off
  split_where := match d.split_attributes with
    | true => Offable.on ⟨⟩
    | false => Offable.off
  comment_length := match d.comment_width with
    | some x => Offable.on x
    | none => Offable.off
  comment_errors_fatal := match d.comment_errors_fatal with
    | true => Offable.on ⟨⟩
    | false => Offable.off

/-- The `FormatConfig` value `main` builds from the parsed arguments
(`src/bin/genemichaels.rs`, the `let config = FormatConfig { .. }` block). -/
def configFromArgs (args : Args) : FormatConfig where
  quiet := args.quiet
  max_width := args.line_length
  root_splits := args.root_splits
  split_brace_threshold := match args.split_brace_threshold with
    | Offable.off => none
    | Offable.on n => some n
  split_attributes := match args.split_attributes with
    | Offable.off => false
    | Offable.on _ => true
  split_where := match args.split_where with
    | Offable.off => false
    | Offable.on _ => true
  comment_width := match args.comment_length with
    | Offable.off => none
    | Offable.on n => some n
  comment_errors_fatal := match args.comment_errors_fatal with
    | Offable.off => false
    | Offable.on _ => true

/-- The mutable state of `FormatPool` that `format_dir` manipulates: the `seen` set of
paths (the `HashSet` modelled as a duplicate-free list) and the ordered list of file
paths submitted to the thread pool for formatting. -/
structure FormatPool where
  seen : List String
  jobs : List String
deriving DecidableEq, Repr

/-- `HashSet::insert`: returns the updated set and whether the value was newly
inserted. -/
def seenInsert (seen : List String) (p : String) : List String × Bool :=
  if p ∈ seen then (seen, false) else (seen ++ [p], true)

/-- Rust's `Path::extension()`: the part of the file name after the final dot, absent
when there is no dot or the only dot leads a hidden file name. -/
def rustExtension (path : String) : Option String :=
  let fileName := (splitOnChar '/' path.toList).getLastD []
  match splitOnChar '.' fileName with
  | [] => none
  | [_] => none
  | [[], _] => none
  | parts => (parts.getLast?).map List.asString

/-- The body of the walk loop in `FormatPool::format_dir`
(`src/bin/genemichaels.rs`): the walked path is inserted into `seen` first, and only a
newly seen path with extension exactly `rs` is submitted for formatting (appended to
`jobs`, the `pool.execute` call). -/
def formatDirStep (pool : FormatPool) (file_path : String) : FormatPool :=
  let ri := seenInsert pool.seen file_path
  let pool := { pool with seen := ri.1 }
  if !ri.2 || !decide (rustExtension file_path = some "rs") then pool
  else { pool with jobs := pool.jobs ++ [file_path] }

/-- Translation of `FormatPool::format_dir` (`src/bin/genemichaels.rs`), parametric in
the directory walk (`walkdir::WalkDir`, yielding the entry paths in order): an
already-seen directory is skipped outright, otherwise every walked path runs the loop
body `formatDirStep`. -/
def format_dir (walk : String → List String) (pool : FormatPool) (dir : String) :
    FormatPool :=
  let r := seenInsert pool.seen dir
  if !r.2 then pool
  else (walk dir).foldl formatDirStep { pool with seen := r.1 }

/-- A whole `--package` invocation as seen by `format_dir`: the sequence of
`pool.format_dir(..)` calls `process_dirs` makes against the initially empty pool. -/
def runFormatDirs (walk : String → List String) (dirs : List String) : FormatPool :=
  dirs.foldl (format_dir walk) ⟨[], []⟩

/-! ## Builder bookkeeping lemmas -/

theorem seg_initialSplit (node : SplitGroupBuilder) (out : MakeSegsState) (s : String) :
    (node.seg out s).initialSplit = node.initialSplit := rfl

theorem child_initialSplit (node : SplitGroupBuilder) (i : Nat) :
    (node.child i).initialSplit = node.initialSplit := rfl

theorem gap_initialSplit (out : MakeSegsState) (bi : Align) (node : SplitGroupBuilder)
    (p : Pos) : (append_whitespace out bi node p).initialSplit = node.initialSplit := rfl

theorem build_cfg (node : SplitGroupBuilder) (out : MakeSegsState) :
    (node.build out).1.cfg = out.cfg := rfl

theorem builtGroup_build (node : SplitGroupBuilder) (out : MakeSegsState) :
    builtGroup (node.build out) = ⟨node.segs, node.children, node.initialSplit⟩ := by
  simp [builtGroup, SplitGroupBuilder.build, List.getD_append_right]

theorem tyMakeSegs_cfg (out : MakeSegsState) (bi : Align) (t : Ty) :
    (tyMakeSegs out bi t).1.cfg = out.cfg := rfl

theorem build_generics_part_a_cfg (out : MakeSegsState) (bi : Align) (g : Generics) :
    (build_generics_part_a out bi g).1.cfg = out.cfg := rfl

theorem build_generics_part_b_cfg (out : MakeSegsState) (bi : Align) (wh : WhereClause) :
    (build_generics_part_b out bi wh).1.cfg = out.cfg := rfl

theorem append_vis_cfg (out : MakeSegsState) (bi : Align) (node : SplitGroupBuilder)
    (v : Visibility) : (append_vis out bi node v).1.cfg = out.cfg := by
  cases v <;> rfl

theorem append_vis_initialSplit (out : MakeSegsState) (bi : Align)
    (node : SplitGroupBuilder) (v : Visibility) :
    (append_vis out bi node v).2.initialSplit = node.initialSplit := by
  cases v <;>
    simp only [append_vis, seg_initialSplit, child_initialSplit, gap_initialSplit] <;>
    first
    | rfl
    | (split <;> rfl)

theorem appendChildren_initialSplit {α : Type}
    (f : MakeSegsState → Align → α → MakeSegsState × Nat) (bi : Align) :
    ∀ (xs : List α) (out : MakeSegsState) (node : SplitGroupBuilder),
      (appendChildren f out bi node xs).2.initialSplit = node.initialSplit := by
  intro xs
  induction xs with
  | nil => intro out node; rfl
  | cons x xs ih =>
    intro out node
    simp only [appendChildren]
    rw [ih]
    rfl

theorem append_bracketed_list_curly_initialSplit {α : Type}
    (f : MakeSegsState → Align → α → MakeSegsState × Nat) (out : MakeSegsState)
    (bi : Align) (node : SplitGroupBuilder) (bp : Pos) (items : List α) (ep : Pos) :
    (append_bracketed_list_curly f out bi node bp items ep).2.initialSplit =
      node.initialSplit := by
  simp only [append_bracketed_list_curly, seg_initialSplit, gap_initialSplit,
    appendChildren_initialSplit]

theorem append_generics_cfg (out : MakeSegsState) (bi : Align)
    (node : SplitGroupBuilder) (g : Generics) :
    (append_generics out bi node g).1.cfg = out.cfg := by
  rcases g with ⟨ps, wc⟩
  rcases wc with _ | wh <;> rcases ps with _ | ⟨p, ps⟩ <;> rfl

theorem append_generics_initialSplit (out : MakeSegsState) (bi : Align)
    (node : SplitGroupBuilder) (g : Generics) :
    (append_generics out bi node g).2.initialSplit = node.initialSplit := by
  rcases g with ⟨ps, wc⟩
  rcases wc with _ | wh <;> rcases ps with _ | ⟨p, ps⟩ <;> rfl

/-! ## Claim theorems -/

/-- C7: for every trait item, `want_margin` tags a method `MarginGroup::BlockDef` with
the has-visible-body flag equal to `default.is_some()` — `true` exactly when the method
has a default implementation, and `false` for a method without a default body. -/
theorem traitItem_method_want_margin :
    (∀ m : TraitItemMethod,
      TraitItem.want_margin (TraitItem.method m) =
        (MarginGroup.BlockDef, m.default.isSome)) ∧
    (∀ m : TraitItemMethod,
      (TraitItem.want_margin (TraitItem.method m)).2 = true ↔ m.default.isSome = true) ∧
    (∀ (attrs : List Attr) (sig : Signature) (semi : Option Pos),
      TraitItem.want_margin (TraitItem.method ⟨attrs, sig, none, semi⟩) =
        (MarginGroup.BlockDef, false)) :=
  ⟨fun _ => rfl, fun _ => Iff.rfl, fun _ _ _ => rfl⟩

/-- C9: the `--split-where` default is computed from
`FormatConfig::default().split_attributes` (source line 136), so the configuration built
from flagless arguments has `split_where = split_attributes`; whenever the library's two
defaults differ, the resulting `split_where` differs from the library default for
`split_where`. -/
theorem split_where_default_from_split_attributes :
    (∀ d : FormatConfig,
      (configFromArgs (defaultArgs d)).split_where = d.split_attributes) ∧
    (∀ d : FormatConfig, d.split_attributes ≠ d.split_where →
      (configFromArgs (defaultArgs d)).split_where ≠ d.split_where) := by
  have h1 : ∀ d : FormatConfig,
      (configFromArgs (defaultArgs d)).split_where = d.split_attributes := by
    intro d
    rcases d with ⟨q, mw, rs, sbt, sa, sw, cw, cef⟩
    cases sa <;> rfl
  exact ⟨h1, fun d h => by rw [h1 d]; exact h⟩

/-- C9 witness: with library defaults `split_attributes = true`, `split_where = false`,
the flagless CLI configuration has `split_where ≠ false`. -/
theorem split_where_default_witness :
    (⟨false, 100, false, none, true, false, none, true⟩ : FormatConfig).split_attributes ≠
        (⟨false, 100, false, none, true, false, none, true⟩ : FormatConfig).split_where ∧
      (configFromArgs
            (defaultArgs ⟨false, 100, false, none, true, false, none, true⟩)).split_where ≠
        (⟨false, 100, false, none, true, false, none, true⟩ : FormatConfig).split_where :=
  ⟨by decide, split_where_default_from_split_attributes.2 _ (by decide)⟩

/-- C2: whenever `format_str` succeeds but its result carries a non-empty lost-comment
mapping, `process` returns the error listing the flattened lost comments — for every
configuration, in particular with `comment_errors_fatal = false`; the rendered text is
never returned. -/
theorem process_fails_on_lost_comments :
    ∀ (format_str : String → FormatConfig → Except String FormatRes)
      (parse_str : String → Option ParseErr) (config : FormatConfig) (source : String)
      (res : FormatRes),
      format_str source config = Except.ok res →
      res.lost_comments ≠ [] →
      process format_str parse_str config source =
        Except.error (ProcessError.lostComments (lostValuesFlatten res.lost_comments)) := by
  intro f p c s res hok hne
  rcases res with ⟨r, lc⟩
  cases lc with
  | nil => exact absurd rfl hne
  | cons a l => simp [process, hok]

/-- C2 witness: a succeeding format call with one lost comment makes `process` fail with
that comment listed, under `comment_errors_fatal = false`. -/
theorem process_fails_on_lost_comments_witness :
    process
        (fun _ _ => Except.ok (⟨"fn f() \x7b\x7d", [(3, [⟨3, "// c"⟩])]⟩ : FormatRes))
        (fun _ => none) ⟨false, 100, false, none, false, false, none, false⟩ "fn f()" =
      Except.error
        (ProcessError.lostComments (lostValuesFlatten [(3, [⟨3, "// c"⟩])])) :=
  process_fails_on_lost_comments _ _ _ _ _ rfl (List.cons_ne_nil _ _)

/-- C3: `process` returns the rendered text only when the re-parse of that text
succeeds; when the re-parse fails it returns the error carrying the failure's line and
column. -/
theorem process_reparse_self_check :
    (∀ (format_str : String → FormatConfig → Except String FormatRes)
        (parse_str : String → Option ParseErr) (config : FormatConfig) (source out : String),
      process format_str parse_str config source = Except.ok out →
      ∃ res : FormatRes, format_str source config = Except.ok res ∧ out = res.rendered ∧
        parse_str res.rendered = none) ∧
    (∀ (format_str : String → FormatConfig → Except String FormatRes)
        (parse_str : String → Option ParseErr) (config : FormatConfig) (source : String)
        (res : FormatRes) (e : ParseErr),
      format_str source config = Except.ok res →
      res.lost_comments = [] →
      parse_str res.rendered = some e →
      process format_str parse_str config source =
        Except.error (ProcessError.reparse e.line e.col e.msg
          (excerptLines res.rendered e.line))) := by
  constructor
  · intro f p c s out h
    cases hf : f s c with
    | error e => simp [process, hf] at h
    | ok res =>
      refine ⟨res, rfl, ?_⟩
      cases he : res.lost_comments.isEmpty with
      | false => simp [process, hf, he] at h
      | true =>
        cases hp : p res.rendered with
        | some e => simp [process, hf, he, hp] at h
        | none =>
          simp [process, hf, he, hp] at h
          exact ⟨h.symm, rfl⟩
  · intro f p c s res e hf hlc hp
    simp [process, hf, hlc, hp]

/-- C3 witness: a format result that fails the re-parse makes `process` return the
re-parse error with its line and column; one that passes makes it return the rendered
text. -/
theorem process_reparse_self_check_witness :
    process (fun _ _ => Except.ok (⟨"fn f(", []⟩ : FormatRes))
        (fun _ => some ⟨1, 5, "unexpected end of input"⟩)
        ⟨false, 100, false, none, false, false, none, false⟩ "fn f()" =
      Except.error (ProcessError.reparse 1 5 "unexpected end of input"
        (excerptLines "fn f(" 1)) ∧
    ∃ res : FormatRes,
      (Except.ok (⟨"fn f() \x7b\x7d", []⟩ : FormatRes) : Except String FormatRes) =
          Except.ok res ∧
      "fn f() \x7b\x7d" = res.rendered ∧ (none : Option ParseErr) = none :=
  ⟨process_reparse_self_check.2 _ _ _ _ ⟨"fn f(", []⟩ ⟨1, 5, "unexpected end of input"⟩
      rfl rfl rfl,
    process_reparse_self_check.1 (fun _ _ => Except.ok ⟨"fn f() \x7b\x7d", []⟩)
      (fun _ => none) ⟨false, 100, false, none, false, false, none, false⟩ "fn f()"
      "fn f() \x7b\x7d" rfl⟩

/-- C6: `skip` is true exactly when one of the first five lines contains the marker
`` `nogenemichaels` `` (backticks included); a skipped stdin input is echoed verbatim and
a skipped file is reported skipped, not rewritten. -/
theorem skip_marker_first_five_lines :
    (∀ src : String, skip src = true ↔
      ∃ l ∈ (rustLines src).take 5,
        List.IsInfix "`nogenemichaels`".toList l.toList) ∧
    (∀ (format_str : String → FormatConfig → Except String FormatRes)
        (parse_str : String → Option ParseErr) (config : FormatConfig) (source : String),
      skip source = true →
      mainStdin format_str parse_str config source = Except.ok source) ∧
    (∀ (fs_read : String → Except String String)
        (format_str : String → FormatConfig → Except String FormatRes)
        (parse_str : String → Option ParseErr) (config : FormatConfig)
        (file source : String),
      fs_read file = Except.ok source → skip source = true →
      fileStep fs_read format_str parse_str config file = FileOutcome.skipped) := by
  refine ⟨?_, ?_, ?_⟩
  · intro src
    simp [skip, List.any_eq_true]
  · intro f p c source h
    simp [mainStdin, h]
  · intro fr f p c file source hread h
    simp [fileStep, hread, h]

/-- C6 witness: an input with the marker on line one is skipped, echoed verbatim from
stdin, and left unwritten as a file; the marker on line six alone does not skip. -/
theorem skip_marker_witness :
    skip "// `nogenemichaels`\nfn main() \x7b\x7d\n" = true ∧
    mainStdin (fun _ _ => Except.error "no") (fun _ => none)
        ⟨false, 100, false, none, false, false, none, false⟩
        "// `nogenemichaels`\nfn main() \x7b\x7d\n" =
      Except.ok "// `nogenemichaels`\nfn main() \x7b\x7d\n" ∧
    fileStep (fun _ => Except.ok "// `nogenemichaels`\nfn main() \x7b\x7d\n")
        (fun _ _ => Except.error "no") (fun _ => none)
        ⟨false, 100, false, none, false, false, none, false⟩ "src/main.rs" =
      FileOutcome.skipped ∧
    skip "1\n2\n3\n4\n5\n// `nogenemichaels`\n" = false :=
  ⟨by decide,
    skip_marker_first_five_lines.2.1 _ _ _ _ (by decide),
    skip_marker_first_five_lines.2.2 _ _ _ _ _ _ rfl (by decide),
    by decide⟩

theorem mainFilesLoop_spec (fs_read : String → Except String String)
    (format_str : String → FormatConfig → Except String FormatRes)
    (parse_str : String → Option ParseErr) (config : FormatConfig) :
    ∀ (files : List String) (failed : Bool),
      (mainFilesLoop fs_read format_str parse_str config files failed).1 =
        files.map (fun file =>
          (file, fileStep fs_read format_str parse_str config file)) ∧
      (mainFilesLoop fs_read format_str parse_str config files failed).2 =
        (failed || files.any (fun file =>
          decide (fileStep fs_read format_str parse_str config file =
            FileOutcome.failed))) := by
  intro files
  induction files with
  | nil => intro failed; simp [mainFilesLoop]
  | cons file rest ih =>
    intro failed
    refine ⟨?_, ?_⟩
    · simp [mainFilesLoop, (ih _).1]
    · simp only [mainFilesLoop, (ih _).2, List.any_cons]
      cases h : decide (fileStep fs_read format_str parse_str config file =
        FileOutcome.failed) <;> simp [h, Bool.or_assoc]

/-- C5: the file-list branch of `main` visits every listed file in order and computes its
outcome regardless of earlier failures, and the exit status is non-zero exactly when some
listed file's outcome is `failed`; a skipped file's outcome is `skipped`, which is not
`failed` and therefore counts as success. -/
theorem files_processed_independently_exit_on_failure :
    (∀ (fs_read : String → Except String String)
        (format_str : String → FormatConfig → Except String FormatRes)
        (parse_str : String → Option ParseErr) (config : FormatConfig)
        (files : List String),
      (mainFilesLoop fs_read format_str parse_str config files false).1 =
        files.map (fun file =>
          (file, fileStep fs_read format_str parse_str config file))) ∧
    (∀ (fs_read : String → Except String String)
        (format_str : String → FormatConfig → Except String FormatRes)
        (parse_str : String → Option ParseErr) (config : FormatConfig)
        (files : List String),
      mainFilesExit fs_read format_str parse_str config files ≠ 0 ↔
        ∃ file ∈ files,
          fileStep fs_read format_str parse_str config file = FileOutcome.failed) ∧
    (∀ s : String, FileOutcome.skipped ≠ FileOutcome.failed ∧
      FileOutcome.formatted s ≠ FileOutcome.failed) := by
  refine ⟨?_, ?_, ?_⟩
  · intro fr f p c files
    exact (mainFilesLoop_spec fr f p c files false).1
  · intro fr f p c files
    have hb : ∀ b : Bool, ((if b = true then 1 else 0 : Nat) ≠ 0 ↔ b = true) := by
      intro b; cases b <;> simp
    rw [mainFilesExit, (mainFilesLoop_spec fr f p c files false).2, Bool.false_or, hb]
    simp [List.any_eq_true]
  · intro s
    exact ⟨fun h => FileOutcome.noConfusion h, fun h => FileOutcome.noConfusion h⟩

theorem useTreeListSegs_initialSplit (bi : Align) :
    ∀ (ts : List UseTree) (out : MakeSegsState) (sg : SplitGroupBuilder),
      (useTreeListSegs out bi sg ts).2.initialSplit = sg.initialSplit := by
  intro ts
  induction ts with
  | nil => intro out sg; rfl
  | cons t ts ih =>
    intro out sg
    simp only [useTreeListSegs]
    rw [ih]
    rfl

/-- C4: with `split_brace_threshold = Some(N)` the brace-delimited groups the front end
builds — a named-field struct, an enum's variant list, a union's field list, a use-group
— are marked forced-split (`initial_split`) exactly when their element count is ≥ N, and
with the option absent the check never fires. -/
theorem split_brace_threshold_marks_groups :
    (∀ (out : MakeSegsState) (bi : Align) (attrs : List Attr) (vis : Visibility)
        (sp : Pos) (ident : String) (g : Generics) (s : FieldsNamed) (semi : Option Pos),
      (builtGroup (itemStructInner out bi
          ⟨attrs, vis, sp, ident, g, Fields.named s, semi⟩)).initialSplit =
        splitCheck out.cfg.split_brace_threshold s.named.length) ∧
    (∀ (out : MakeSegsState) (bi : Align) (x : ItemEnum),
      (builtGroup (itemEnumInner out bi x)).initialSplit =
        splitCheck out.cfg.split_brace_threshold x.variants.length) ∧
    (∀ (out : MakeSegsState) (bi : Align) (x : ItemUnion),
      (builtGroup (itemUnionInner out bi x)).initialSplit =
        splitCheck out.cfg.split_brace_threshold x.fields.named.length) ∧
    (∀ (out : MakeSegsState) (bi : Align) (bp : Pos) (items : List UseTree) (ep : Pos),
      (builtGroup (useTreeMakeSegs out bi (UseTree.group bp items ep))).initialSplit =
        splitCheck out.cfg.split_brace_threshold items.length) ∧
    (∀ (q : Bool) (mw : Nat) (rs sa sw : Bool) (cw : Option Nat) (cef : Bool)
        (arena : List SplitGroup) (count : Nat),
      check_split_brace_threshold ⟨⟨q, mw, rs, none, sa, sw, cw, cef⟩, arena⟩ count =
        false) := by
  refine ⟨?_, ?_, ?_, ?_, ?_⟩
  · intro out bi attrs vis sp ident g s semi
    rcases g with ⟨ps, wc⟩
    rcases Bool.eq_false_or_eq_true
        (splitCheck out.cfg.split_brace_threshold s.named.length) with hc | hc <;>
      rcases wc with _ | wh <;> rcases ps with _ | ⟨p0, ps⟩ <;>
      simp [itemStructInner, check_split_brace_threshold, append_vis_cfg,
        build_generics_part_a_cfg, build_generics_part_b_cfg, builtGroup_build, hc,
        append_bracketed_list_curly_initialSplit, seg_initialSplit, gap_initialSplit,
        child_initialSplit, append_vis_initialSplit, SplitGroupBuilder.initial_split,
        new_sg]
  · intro out bi x
    rcases Bool.eq_false_or_eq_true
        (splitCheck out.cfg.split_brace_threshold x.variants.length) with hc | hc <;>
      simp [itemEnumInner, check_split_brace_threshold, builtGroup_build, hc,
        append_bracketed_list_curly_initialSplit, append_generics_initialSplit,
        seg_initialSplit, gap_initialSplit, append_vis_initialSplit,
        SplitGroupBuilder.initial_split, new_sg]
  · intro out bi x
    rcases Bool.eq_false_or_eq_true
        (splitCheck out.cfg.split_brace_threshold x.fields.named.length) with hc | hc <;>
      simp [itemUnionInner, check_split_brace_threshold, builtGroup_build, hc,
        append_bracketed_list_curly_initialSplit, append_generics_initialSplit,
        seg_initialSplit, gap_initialSplit, append_vis_initialSplit,
        SplitGroupBuilder.initial_split, new_sg]
  · intro out bi bp items ep
    rcases Bool.eq_false_or_eq_true
        (splitCheck out.cfg.split_brace_threshold items.length) with hc | hc <;>
      simp [useTreeMakeSegs, check_split_brace_threshold, builtGroup_build, hc,
        useTreeListSegs_initialSplit, seg_initialSplit, gap_initialSplit,
        SplitGroupBuilder.initial_split, new_sg]
  · intro q mw rs sa sw cw cef arena count
    rfl

/-- C8: for `Item::Fn`, `ImplItem::Method`, and `TraitItem::Method` with a default body,
the arm appends the signature child, then the body-block child, then reverses the
declared child order: in the built group the block child precedes the signature child in
`children` (the order split policy is evaluated against) while the render-order entries
(`segs`) still put the signature first. -/
theorem fn_body_block_precedes_signature :
    (∀ (out : MakeSegsState) (bi : Align) (x : ItemFn),
      ∃ (out1 : MakeSegsState) (sg1 : SplitGroupBuilder) (out2 : MakeSegsState)
        (sigIdx : Nat) (out3 : MakeSegsState) (blockIdx : Nat),
        append_vis out bi (new_sg out) x.vis = (out1, sg1) ∧
        new_sg_sig out1 bi x.sig = (out2, sigIdx) ∧
        new_sg_block out2 bi x.block.brace_pos " \x7b" (some x.attrs) x.block.stmts
          x.block.brace_end = (out3, blockIdx) ∧
        itemFnInner out bi x =
          SplitGroupBuilder.build
            ⟨sg1.segs ++ [Entry.child sigIdx, Entry.child blockIdx],
              blockIdx :: sigIdx :: sg1.children.reverse, sg1.initialSplit⟩ out3) ∧
    (∀ (out : MakeSegsState) (bi : Align) (x : ImplItemMethod),
      ∃ (out1 : MakeSegsState) (sg1 : SplitGroupBuilder) (out2 : MakeSegsState)
        (sigIdx : Nat) (out3 : MakeSegsState) (blockIdx : Nat),
        append_vis out bi (new_sg out) x.vis = (out1, sg1) ∧
        new_sg_sig out1 bi x.sig = (out2, sigIdx) ∧
        new_sg_block out2 bi x.block.brace_pos " \x7b" (some x.attrs) x.block.stmts
          x.block.brace_end = (out3, blockIdx) ∧
        implItemMethodInner out bi x =
          SplitGroupBuilder.build
            ⟨sg1.segs ++ [Entry.child sigIdx, Entry.child blockIdx],
              blockIdx :: sigIdx :: sg1.children.reverse, sg1.initialSplit⟩ out3) ∧
    (∀ (out : MakeSegsState) (bi : Align) (attrs : List Attr) (sig : Signature)
        (d : Block) (semi : Option Pos),
      ∃ (out2 : MakeSegsState) (sigIdx : Nat) (out3 : MakeSegsState) (blockIdx : Nat),
        new_sg_sig out bi sig = (out2, sigIdx) ∧
        new_sg_block out2 bi d.brace_pos " \x7b" none d.stmts d.brace_end =
          (out3, blockIdx) ∧
        traitItemMethodInner out bi ⟨attrs, sig, some d, semi⟩ =
          SplitGroupBuilder.build
            ⟨[Entry.child sigIdx, Entry.child blockIdx], [blockIdx, sigIdx], false⟩
            out3) := by
  refine ⟨?_, ?_, ?_⟩
  · intro out bi x
    rcases hv : append_vis out bi (new_sg out) x.vis with ⟨out1, sg1⟩
    rcases hs : new_sg_sig out1 bi x.sig with ⟨out2, sigIdx⟩
    rcases hb : new_sg_block out2 bi x.block.brace_pos " \x7b" (some x.attrs)
      x.block.stmts x.block.brace_end with ⟨out3, blockIdx⟩
    refine ⟨out1, sg1, out2, sigIdx, out3, blockIdx, rfl, hs, hb, ?_⟩
    simp [itemFnInner, hv, hs, hb, SplitGroupBuilder.child,
      SplitGroupBuilder.reverse_children, List.reverse_append]
  · intro out bi x
    rcases hv : append_vis out bi (new_sg out) x.vis with ⟨out1, sg1⟩
    rcases hs : new_sg_sig out1 bi x.sig with ⟨out2, sigIdx⟩
    rcases hb : new_sg_block out2 bi x.block.brace_pos " \x7b" (some x.attrs)
      x.block.stmts x.block.brace_end with ⟨out3, blockIdx⟩
    refine ⟨out1, sg1, out2, sigIdx, out3, blockIdx, rfl, hs, hb, ?_⟩
    simp [implItemMethodInner, hv, hs, hb, SplitGroupBuilder.child,
      SplitGroupBuilder.reverse_children, List.reverse_append]
  · intro out bi attrs sig d semi
    rcases hs : new_sg_sig out bi sig with ⟨out2, sigIdx⟩
    rcases hb : new_sg_block out2 bi d.brace_pos " \x7b" none d.stmts d.brace_end
      with ⟨out3, blockIdx⟩
    refine ⟨out2, sigIdx, out3, blockIdx, rfl, hb, ?_⟩
    simp [traitItemMethodInner, hs, hb, SplitGroupBuilder.child,
      SplitGroupBuilder.reverse_children, new_sg, List.reverse_append]

/-- A group whose entries contain the `where` keyword literal — in this development only
`build_generics_part_b` emits that literal, so this recognizes where-clause subtrees. -/
def isWhereGroup (g : SplitGroup) : Bool :=
  g.segs.any (fun e => decide (e = Entry.lit "where"))

/-- Every group handle a group refers to: its child entries and its declared child
list. -/
def groupRefs (g : SplitGroup) : List Nat :=
  (g.segs.filterMap (fun e => match e with
    | Entry.child i => some i
    | _ => none)) ++ g.children

/-- Whether any group of the arena refers to a where-clause group. -/
def refsWhereGroup (a : List SplitGroup) : Bool :=
  a.any (fun g => (groupRefs g).any (fun j =>
    isWhereGroup (a.getD j ⟨[], [], false⟩)))

/-- C1 (the code drops the where clause): running the `Item::Trait` arm on
`trait T where …` allocates the where-clause group in the arena but no group — in
particular not the trait's own group — refers to it, so the where clause cannot appear
in the rendered output. -/
theorem itemTrait_drops_where_clause_group :
    (let r := itemTraitInner ⟨⟨false, 120, false, none, false, false, none, false⟩, []⟩ 0
        ⟨[], Visibility.inherited, none, none, 0, "T", ⟨[], some ⟨10⟩⟩, false, [], 20,
          [], 22⟩
     (r.1.arena.any isWhereGroup, refsWhereGroup r.1.arena,
       (builtGroup r).children.length)) = (true, false, 1) := by decide

theorem formatDirStep_inv (p : FormatPool) (f : String)
    (h : p.jobs.Nodup ∧ (∀ j ∈ p.jobs, j ∈ p.seen) ∧
      ∀ j ∈ p.jobs, rustExtension j = some "rs") :
    (formatDirStep p f).jobs.Nodup ∧
      (∀ j ∈ (formatDirStep p f).jobs, j ∈ (formatDirStep p f).seen) ∧
      ∀ j ∈ (formatDirStep p f).jobs, rustExtension j = some "rs" := by
  obtain ⟨hnd, hsub, hext⟩ := h
  by_cases hm : f ∈ p.seen
  · have hstep : formatDirStep p f = p := by
      simp [formatDirStep, seenInsert, hm]
    rw [hstep]
    exact ⟨hnd, hsub, hext⟩
  · by_cases he : rustExtension f = some "rs"
    · have hstep : formatDirStep p f = ⟨p.seen ++ [f], p.jobs ++ [f]⟩ := by
        simp [formatDirStep, seenInsert, hm, he]
      rw [hstep]
      refine ⟨?_, ?_, ?_⟩
      · refine hnd.append (List.nodup_singleton f) ?_
        intro a ha hb
        rw [List.mem_singleton] at hb
        subst hb
        exact hm (hsub a ha)
      · intro j hj
        rcases List.mem_append.mp hj with hj | hj
        · exact List.mem_append.mpr (Or.inl (hsub j hj))
        · exact List.mem_append.mpr (Or.inr hj)
      · intro j hj
        rcases List.mem_append.mp hj with hj | hj
        · exact hext j hj
        · rw [List.mem_singleton] at hj
          subst hj
          exact he
    · have hstep : formatDirStep p f = ⟨p.seen ++ [f], p.jobs⟩ := by
        simp [formatDirStep, seenInsert, hm, he]
      rw [hstep]
      exact ⟨hnd,
        fun j hj => List.mem_append.mpr (Or.inl (hsub j hj)), hext⟩

theorem foldl_formatDirStep_inv :
    ∀ (fs : List String) (p : FormatPool),
      (p.jobs.Nodup ∧ (∀ j ∈ p.jobs, j ∈ p.seen) ∧
        ∀ j ∈ p.jobs, rustExtension j = some "rs") →
      ((fs.foldl formatDirStep p).jobs.Nodup ∧
        (∀ j ∈ (fs.foldl formatDirStep p).jobs, j ∈ (fs.foldl formatDirStep p).seen) ∧
        ∀ j ∈ (fs.foldl formatDirStep p).jobs, rustExtension j = some "rs") := by
  intro fs
  induction fs with
  | nil => intro p h; exact h
  | cons f fs ih =>
    intro p h
    exact ih (formatDirStep p f) (formatDirStep_inv p f h)

theorem format_dir_inv (walk : String → List String) (p : FormatPool) (dir : String)
    (h : p.jobs.Nodup ∧ (∀ j ∈ p.jobs, j ∈ p.seen) ∧
      ∀ j ∈ p.jobs, rustExtension j = some "rs") :
    ((format_dir walk p dir).jobs.Nodup ∧
      (∀ j ∈ (format_dir walk p dir).jobs, j ∈ (format_dir walk p dir).seen) ∧
      ∀ j ∈ (format_dir walk p dir).jobs, rustExtension j = some "rs") := by
  obtain ⟨hnd, hsub, hext⟩ := h
  by_cases hm : dir ∈ p.seen
  · have hstep : format_dir walk p dir = p := by
      simp [format_dir, seenInsert, hm]
    rw [hstep]
    exact ⟨hnd, hsub, hext⟩
  · have hstep : format_dir walk p dir =
        (walk dir).foldl formatDirStep ⟨p.seen ++ [dir], p.jobs⟩ := by
      simp [format_dir, seenInsert, hm]
    rw [hstep]
    exact foldl_formatDirStep_inv (walk dir) _
      ⟨hnd, fun j hj => List.mem_append.mpr (Or.inl (hsub j hj)), hext⟩

theorem runFormatDirs_inv (walk : String → List String) :
    ∀ (dirs : List String) (p : FormatPool),
      (p.jobs.Nodup ∧ (∀ j ∈ p.jobs, j ∈ p.seen) ∧
        ∀ j ∈ p.jobs, rustExtension j = some "rs") →
      ((dirs.foldl (format_dir walk) p).jobs.Nodup ∧
        ∀ j ∈ (dirs.foldl (format_dir walk) p).jobs, rustExtension j = some "rs") := by
  intro dirs
  induction dirs with
  | nil => intro p h; exact ⟨h.1, h.2.2⟩
  | cons d ds ih =>
    intro p h
    exact ih (format_dir walk p d) (format_dir_inv walk p d h)

/-- C10: over any `--package` invocation (any sequence of `format_dir` calls against the
initially empty pool), the submitted job list has no duplicate path and every submitted
path has extension exactly `rs`; a directory already in the `seen` set is not walked
again (the call leaves the pool unchanged). -/
theorem package_mode_dedup_and_rs_only :
    (∀ (walk : String → List String) (dirs : List String),
      (runFormatDirs walk dirs).jobs.Nodup ∧
        ∀ j ∈ (runFormatDirs walk dirs).jobs, rustExtension j = some "rs") ∧
    (∀ (walk : String → List String) (pool : FormatPool) (dir : String),
      dir ∈ pool.seen → format_dir walk pool dir = pool) := by
  constructor
  · intro walk dirs
    exact runFormatDirs_inv walk dirs ⟨[], []⟩
      ⟨List.nodup_nil, fun j hj => absurd hj (List.not_mem_nil j),
        fun j hj => absurd hj (List.not_mem_nil j)⟩
  · intro walk pool dir hm
    simp [format_dir, seenInsert, hm]

/-- C10 witness: a second `format_dir` call on an already-seen directory leaves the pool
unchanged, and a run over a walk with a duplicate path and a non-`rs` file submits the
`rs` file once. -/
theorem package_mode_dedup_witness :
    ("src" ∈ (⟨["src"], ["src/a.rs"]⟩ : FormatPool).seen) ∧
    format_dir (fun _ => ["src/a.rs"]) ⟨["src"], ["src/a.rs"]⟩ "src" =
      ⟨["src"], ["src/a.rs"]⟩ ∧
    (runFormatDirs (fun _ => ["src/a.rs", "src/a.rs", "src/b.txt"]) ["src", "src"]).jobs =
      ["src/a.rs"] :=
  ⟨by decide,
    package_mode_dedup_and_rs_only.2 _ _ _ (by decide),
    by decide⟩

/-- C5 witness: with a single file whose read fails, the exit status is non-zero; a
skipped outcome is not a failure. -/
theorem files_exit_witness :
    (mainFilesExit (fun _ => Except.error "io error") (fun _ _ => Except.error "fmt")
        (fun _ => none) ⟨false, 100, false, none, false, false, none, false⟩
        ["a.rs"] ≠ 0) ∧
    FileOutcome.skipped ≠ FileOutcome.failed :=
  ⟨(files_processed_independently_exit_on_failure.2.1 _ _ _ _ _).mpr
      ⟨"a.rs", List.mem_singleton.mpr rfl, rfl⟩,
    (files_processed_independently_exit_on_failure.2.2 "").1⟩
